import Mathlib

/-!
Shallow embedding of the btrade repository's market-data feed core
(`src/backtrader/feeds/base.py` and `src/backtrader/feeds/yahoo.py`).

Numbers are modeled as exact rationals (`ℚ`); Python's `round` built-in
(round-half-to-even at a decimal position) is modeled exactly on ℚ.
Python exceptions are modeled with `Except` / explicit error constructors.
-/

/-- Round-half-to-even of a rational to an integer, as Python's `round(x)`. -/
def rhe (q : ℚ) : ℤ :=
  let f := ⌊q⌋
  let frac := q - f
  if frac < 1/2 then f
  else if 1/2 < frac then f + 1
  else if f % 2 = 0 then f else f + 1

/-- Python's `round(x, ndigits)` on exact rationals (half-to-even). -/
def pyRound (ndigits : ℕ) (q : ℚ) : ℚ :=
  (rhe (q * 10 ^ ndigits) : ℚ) / 10 ^ ndigits

/-- A CSV token after the date column: the literal `'null'` marker, a numeric
token (already carrying its parsed value), or some other non-numeric string
(for which Python's `float()` raises `ValueError`). -/
inductive Tok where
  | null : Tok
  | num (q : ℚ) : Tok
  | other (s : String) : Tok
deriving DecidableEq

/-- One raw tokenized CSV line: the date token (pre-parsed `YYYY-MM-DD` as a
year/month/day triple, `linetokens[0]`) and the remaining tokens
(`linetokens[1:]`). -/
structure RawLine where
  date : ℕ × ℕ × ℕ
  rest : List Tok
deriving DecidableEq

/-- The parameters of `YahooFinanceCSVData` that `_loadline` consults. -/
structure Params where
  adjclose : Bool
  adjvolume : Bool
  round : Bool
  decimals : ℕ
  roundvolume : ℕ
  swapcloses : Bool
deriving DecidableEq

/-- The defaults declared in `YahooFinanceCSVData.params`
(`roundvolume` defaults to `False`, i.e. the integer 0). -/
def defaultParams : Params :=
  { adjclose := true, adjvolume := true, round := true,
    decimals := 2, roundvolume := 0, swapcloses := false }

/-- Python exceptions that can escape `_loadline`. -/
inductive Err where
  | zeroDiv : Err
  | valueError : Err
  | indexError : Err
deriving DecidableEq

/-- The values `_loadline` writes into `self.lines` on success. -/
structure BarOut where
  dt : ℕ × ℕ × ℕ
  open' : ℚ
  high : ℚ
  low : ℚ
  close : ℚ
  volume : ℚ
  openinterest : ℚ
  adjclose : ℚ
deriving DecidableEq

/-- Outcome of one `_loadline` call: a bar was produced (`return True` with
the lines filled), `return False` (line source exhausted), or an uncaught
Python exception. -/
inductive LoadResult where
  | bar (b : BarOut) : LoadResult
  | eof : LoadResult
  | err (e : Err) : LoadResult
deriving DecidableEq

/-- The test `tok == 'null'`. -/
def isNullTok : Tok → Bool
  | Tok.null => true
  | _ => false

/-- Some token of `linetokens[1:]` equals `'null'`. -/
def hasNull (line : RawLine) : Bool :=
  line.rest.any isNullTok

/-- The null-resolution loop of `_loadline` (lines 112-125): while the current
line contains the `'null'` marker after the date, discard it and fetch the
next line from the line source (`_getnextline`, modeled as the head of a
list); return the first null-free line, or `none` when the source is
exhausted. -/
def skipNulls (line : RawLine) : List RawLine → Option RawLine
  | [] => if hasNull line then none else some line
  | l :: ls => if hasNull line then skipNulls l ls else some line

/-- Python's `float(tok)`: succeeds on a numeric token, raises `ValueError`
otherwise. -/
def floatTok : Tok → Except Err ℚ
  | Tok.num q => .ok q
  | _ => .error .valueError

/-- Python's `float(linetokens[i])` with `i` counted within `linetokens[1:]`: raises
`IndexError` when the token is missing, `ValueError` when it is not
numeric. -/
def parseTok (line : RawLine) (i : ℕ) : Except Err ℚ :=
  match line.rest.get? i with
  | some t => floatTok t
  | none => .error .indexError

/-- Field extraction of `_loadline` (lines 127-146): `o, h, l, c,
adjustedclose` are parsed with `float` (uncaught exceptions propagate, in
token order), while the volume parse is wrapped in a bare `except` that
defaults `v` to `0.0`. -/
def parsePrices (line : RawLine) : Except Err (ℚ × ℚ × ℚ × ℚ × ℚ × ℚ) :=
  match parseTok line 0 with
  | .error e => .error e
  | .ok o =>
  match parseTok line 1 with
  | .error e => .error e
  | .ok h =>
  match parseTok line 2 with
  | .error e => .error e
  | .ok l =>
  match parseTok line 3 with
  | .error e => .error e
  | .ok c =>
  match parseTok line 4 with
  | .error e => .error e
  | .ok adjustedclose =>
    let v := match parseTok line 5 with
      | .ok q => q
      | .error _ => 0
    .ok (o, h, l, c, adjustedclose, v)

/-- The adjustment step of `_loadline` (lines 148-161): optional close swap,
`adjfactor = c / adjustedclose` (`ZeroDivisionError` when the divisor is 0),
and, when `adjclose` is enabled, division of `o, h, l` by the factor
(`ZeroDivisionError` when the factor is 0), `c = adjustedclose`, and the
optional volume multiplication. Returns `(o, h, l, c, adjustedclose, v)`. -/
def adjustStep (p : Params) (o h l c adjustedclose v : ℚ) :
    Except Err (ℚ × ℚ × ℚ × ℚ × ℚ × ℚ) :=
  let sw := if p.swapcloses then (adjustedclose, c) else (c, adjustedclose)
  let c := sw.1
  let adjustedclose := sw.2
  if adjustedclose = 0 then .error .zeroDiv
  else
    let adjfactor := c / adjustedclose
    if p.adjclose then
      if adjfactor = 0 then .error .zeroDiv
      else
        .ok (o / adjfactor, h / adjfactor, l / adjfactor, adjustedclose,
             adjustedclose, if p.adjvolume then v * adjfactor else v)
    else .ok (o, h, l, c, adjustedclose, v)

/-- The rounding step of `_loadline` (lines 163-170): `o, h, l, c` are rounded
to `decimals` places only when `round` is enabled; `v` is rounded to
`roundvolume` places unconditionally. -/
def roundStep (p : Params) (o h l c v : ℚ) : ℚ × ℚ × ℚ × ℚ × ℚ :=
  let prices :=
    if p.round then
      (pyRound p.decimals o, pyRound p.decimals h,
       pyRound p.decimals l, pyRound p.decimals c)
    else (o, h, l, c)
  (prices.1, prices.2.1, prices.2.2.1, prices.2.2.2, pyRound p.roundvolume v)

/-- The part of `_loadline` past the null-resolution loop, on the surviving
line: field extraction, adjustment, rounding, and assignment into the lines
(datetime from the surviving line's date token, `openinterest = 0.0`,
`adjclose` set to the post-swap adjusted close). -/
def loadParsed (p : Params) (ln : RawLine) : LoadResult :=
  match parsePrices ln with
  | .error e => .err e
  | .ok (o, h, l, c, adjc, v) =>
    match adjustStep p o h l c adjc v with
    | .error e => .err e
    | .ok (o, h, l, c, adjc2, v) =>
      let r := roundStep p o h l c v
      .bar { dt := ln.date, open' := r.1, high := r.2.1, low := r.2.2.1,
             close := r.2.2.2.1, volume := r.2.2.2.2,
             openinterest := 0, adjclose := adjc2 }

/-- The whole of `YahooFinanceCSVData._loadline`: null-resolution over the
line source,
then the parse of the surviving line. -/
def loadline (p : Params) (line : RawLine) (src : List RawLine) : LoadResult :=
  match skipNulls line src with
  | none => .eof
  | some ln => loadParsed p ln

/-- The bar volume emitted by a `_loadline` outcome, if any. -/
def volumeOf : LoadResult → Option ℚ
  | .bar b => some b.volume
  | _ => none

lemma skipNulls_of_not_null {line : RawLine} (h : hasNull line = false) :
    ∀ src : List RawLine, skipNulls line src = some line := by
  intro src
  cases src <;> simp [skipNulls, h]

lemma loadline_congr (p : Params) {line line' : RawLine}
    {src src' : List RawLine}
    (h : skipNulls line src = skipNulls line' src') :
    loadline p line src = loadline p line' src' := by
  unfold loadline
  rw [h]

lemma hasNull_nums (d : ℕ × ℕ × ℕ) (o h l c adj v : ℚ) :
    hasNull ⟨d, [.num o, .num h, .num l, .num c, .num adj, .num v]⟩ = false := by
  simp [hasNull, isNullTok]

lemma parsePrices_nums (d : ℕ × ℕ × ℕ) (o h l c adj v : ℚ) :
    parsePrices ⟨d, [.num o, .num h, .num l, .num c, .num adj, .num v]⟩ =
      .ok (o, h, l, c, adj, v) := rfl

lemma adjustStep_noswap_adj (p : Params) (o h l c adj v : ℚ)
    (hsw : p.swapcloses = false) (hadj : p.adjclose = true)
    (hvol : p.adjvolume = true) (h0 : adj ≠ 0) (hc : c ≠ 0) :
    adjustStep p o h l c adj v =
      .ok (o / (c / adj), h / (c / adj), l / (c / adj), adj, adj,
           v * (c / adj)) := by
  rw [adjustStep, hsw]
  simp only [if_false, Bool.false_eq_true]
  rw [if_neg h0, hadj]
  simp only [if_true]
  rw [if_neg (div_ne_zero hc h0), hvol]
  simp

/-- C1: with `adjclose` enabled (and no close swap), `_loadline`'s adjustment
step computes `adjfactor = c / adj` and yields `o / adjfactor`,
`h / adjfactor`, `l / adjfactor`, `close = adj`, and — with `adjvolume`
enabled — `v * adjfactor`; on the CSV line
`2020-01-02,100,105,95,102,51,2000000` the factor is 2 and the emitted bar is
(open 50, high 52.5, low 47.5, close 51, volume 4000000), unchanged by the
default rounding. -/
theorem C1_adjclose_reconciliation :
    (∀ (p : Params) (o h l c adj v : ℚ),
      p.adjclose = true → p.adjvolume = true → p.swapcloses = false →
      adj ≠ 0 → c ≠ 0 →
      adjustStep p o h l c adj v =
        .ok (o / (c / adj), h / (c / adj), l / (c / adj), adj, adj,
             v * (c / adj)))
    ∧ (102 : ℚ) / 51 = 2
    ∧ loadline defaultParams
        ⟨(2020, 1, 2),
         [.num 100, .num 105, .num 95, .num 102, .num 51, .num 2000000]⟩ [] =
      .bar { dt := (2020, 1, 2), open' := 50, high := 105/2, low := 95/2,
             close := 51, volume := 4000000, openinterest := 0,
             adjclose := 51 } := by
  refine ⟨fun p o h l c adj v h1 h2 h3 h4 h5 =>
    adjustStep_noswap_adj p o h l c adj v h3 h1 h2 h4 h5, by norm_num, ?_⟩
  norm_num [loadline, loadParsed, skipNulls, hasNull, isNullTok, parsePrices,
    parseTok, floatTok, adjustStep, roundStep, pyRound, rhe, defaultParams]

/-- Witness for C1 at the spec's scenario-B inputs. -/
theorem C1_witness :
    adjustStep defaultParams 100 105 95 102 51 2000000 =
      .ok (100 / (102 / 51), 105 / (102 / 51), 95 / (102 / 51), 51, 51,
           2000000 * (102 / 51)) :=
  C1_adjclose_reconciliation.1 defaultParams 100 105 95 102 51 2000000
    rfl rfl rfl (by norm_num) (by norm_num)

/-- C2: a CSV line whose adjusted-close token parses to 0 (with the default
unswapped column order) makes `_loadline` raise `ZeroDivisionError` — an
outcome distinct from a produced bar and from the end-of-stream `False`. -/
theorem C2_zero_adjclose_rejected :
    (∀ (p : Params) (d : ℕ × ℕ × ℕ) (o h l c v : ℚ) (src : List RawLine),
      p.swapcloses = false →
      loadline p ⟨d, [.num o, .num h, .num l, .num c, .num 0, .num v]⟩ src =
        .err .zeroDiv)
    ∧ (∀ b : BarOut, LoadResult.err Err.zeroDiv ≠ LoadResult.bar b)
    ∧ LoadResult.err Err.zeroDiv ≠ LoadResult.eof := by
  refine ⟨fun p d o h l c v src hsw => ?_, fun b => by simp, by simp⟩
  rw [loadline, skipNulls_of_not_null (hasNull_nums d o h l c 0 v) src]
  simp [loadParsed, parsePrices_nums, adjustStep, hsw]

/-- Witness for C2 on a concrete line with a zero adjusted close. -/
theorem C2_witness :
    loadline defaultParams
      ⟨(2020, 1, 2),
       [.num 100, .num 105, .num 95, .num 102, .num 0, .num 1000]⟩ [] =
      .err .zeroDiv :=
  C2_zero_adjclose_rejected.1 defaultParams (2020, 1, 2) 100 105 95 102 1000
    [] rfl

lemma skipNulls_skips (g : RawLine) (rest : List RawLine) :
    ∀ (bs : List RawLine) (b : RawLine), hasNull b = true →
      (∀ l ∈ bs, hasNull l = true) →
      skipNulls b (bs ++ g :: rest) = skipNulls g rest := by
  intro bs
  induction bs with
  | nil =>
    intro b hb _
    simp only [List.nil_append, skipNulls, hb, if_true]
  | cons l ls ih =>
    intro b hb hall
    simp only [List.cons_append, skipNulls, hb, if_true]
    exact ih l (hall l (by simp)) fun x hx => hall x (by simp [hx])

lemma skipNulls_exhausts :
    ∀ (bs : List RawLine) (b : RawLine), hasNull b = true →
      (∀ l ∈ bs, hasNull l = true) →
      skipNulls b bs = none := by
  intro bs
  induction bs with
  | nil => intro b hb _; simp [skipNulls, hb]
  | cons l ls ih =>
    intro b hb hall
    simp only [skipNulls, hb, if_true]
    exact ih l (hall l (by simp)) fun x hx => hall x (by simp [hx])

/-- C3: lines whose post-date tokens contain the `'null'` marker are each
discarded and the next line fetched; the first null-free line is then parsed
exactly as if the null lines never existed, and when the line source is
exhausted during this resolution `_loadline` returns the end-of-stream
`False` (no bar, no error). -/
theorem C3_null_resolution :
    (∀ (p : Params) (b : RawLine) (bs : List RawLine) (g : RawLine)
       (rest : List RawLine),
      hasNull b = true → (∀ l ∈ bs, hasNull l = true) →
      loadline p b (bs ++ g :: rest) = loadline p g rest)
    ∧ (∀ (p : Params) (b : RawLine) (bs : List RawLine),
      hasNull b = true → (∀ l ∈ bs, hasNull l = true) →
      loadline p b bs = LoadResult.eof) := by
  constructor
  · intro p b bs g rest hb hall
    exact loadline_congr p (skipNulls_skips g rest bs b hb hall)
  · intro p b bs hb hall
    rw [loadline, skipNulls_exhausts bs b hb hall]

/-- Witness for C3: two null-bearing lines are skipped and the following
clean line is parsed as if they never existed; the same nulls with no clean
line behind them give end-of-stream. -/
theorem C3_witness :
    loadline defaultParams ⟨(2020, 1, 2), [Tok.null]⟩
      ([⟨(2020, 1, 3), [Tok.num 1, Tok.null]⟩] ++
        ⟨(2020, 1, 6), [.num 100, .num 105, .num 95, .num 102, .num 51,
                        .num 2000000]⟩ :: []) =
      loadline defaultParams
        ⟨(2020, 1, 6), [.num 100, .num 105, .num 95, .num 102, .num 51,
                        .num 2000000]⟩ []
    ∧ loadline defaultParams ⟨(2020, 1, 2), [Tok.null]⟩
        [⟨(2020, 1, 3), [Tok.num 1, Tok.null]⟩] = LoadResult.eof := by
  constructor
  · exact C3_null_resolution.1 defaultParams _ _ _ _ rfl
      (fun l hl => by rw [List.mem_singleton] at hl; subst hl; rfl)
  · exact C3_null_resolution.2 defaultParams _ _ rfl
      (fun l hl => by rw [List.mem_singleton] at hl; subst hl; rfl)

/-- C4 (code divergence): a CSV line whose volume token is the literal
`'null'` is caught by the line-level null scan — which covers every token
after the date, the volume included — so the line is discarded; with no
further line the result is end-of-stream, and no bar with a defaulted volume
of 0.0 is produced from that line. -/
theorem C4_null_volume_discards_line :
    loadline defaultParams
      ⟨(2020, 1, 2),
       [.num 100, .num 105, .num 95, .num 102, .num 102, Tok.null]⟩ [] =
      LoadResult.eof
    ∧ ∀ b : BarOut,
        loadline defaultParams
          ⟨(2020, 1, 2),
           [.num 100, .num 105, .num 95, .num 102, .num 102, Tok.null]⟩ [] ≠
          LoadResult.bar b := by
  have h : loadline defaultParams
      ⟨(2020, 1, 2),
       [.num 100, .num 105, .num 95, .num 102, .num 102, Tok.null]⟩ [] =
      LoadResult.eof := by
    rw [loadline]
    simp [skipNulls, hasNull, isNullTok]
  exact ⟨h, fun b => by rw [h]; simp⟩

/-- C5 counterexample: with rounding disabled (`round := False`) and the
default `roundvolume = 0`, the CSV line `2020-01-02,100,105,95,102,51,1.25`
(adjustment factor 2, adjusted volume 2.5) still emits volume 2 — the volume
IS rounded even though `round` is off, and the default `roundvolume = 0`
rounds it to an integer rather than leaving it alone. -/
theorem C5_counterexample :
    loadline { defaultParams with round := false }
      ⟨(2020, 1, 2),
       [.num 100, .num 105, .num 95, .num 102, .num 51, .num (5/4)]⟩ [] =
      .bar { dt := (2020, 1, 2), open' := 50, high := 105/2, low := 95/2,
             close := 51, volume := 2, openinterest := 0, adjclose := 51 }
    ∧ (2 : ℚ) ≠ 5/4 * (102/51) := by
  constructor
  · norm_num [loadline, loadParsed, skipNulls, hasNull, isNullTok,
      parsePrices, parseTok, floatTok, adjustStep, roundStep, pyRound, rhe,
      defaultParams]
  · norm_num

lemma adjustStep_round_invariant (p : Params) (b : Bool) (o h l c adjc v : ℚ) :
    adjustStep { p with round := b } o h l c adjc v =
      adjustStep p o h l c adjc v := rfl

lemma loadParsed_round_invariant (p : Params) (b : Bool) (ln : RawLine) :
    volumeOf (loadParsed { p with round := b } ln) =
      volumeOf (loadParsed p ln) := by
  simp only [loadParsed, adjustStep_round_invariant]
  cases hp : parsePrices ln with
  | error e => rfl
  | ok t =>
    obtain ⟨o, h, l, c, adjc, v⟩ := t
    dsimp only
    cases ha : adjustStep p o h l c adjc v with
    | error e => rfl
    | ok t' => obtain ⟨o', h', l', c', a', v'⟩ := t'; rfl

/-- C5 (amended): the volume rounding of `_loadline` is not gated by the
`round` flag — the emitted volume is identical whatever `round` is set to,
it is always the `pyRound roundvolume` image of the adjusted volume, and
with the default `roundvolume = 0` the emitted volume is an integer
(Python's `round(v, False)` = `round(v, 0)`). -/
theorem C5_amended_unconditional_volume_rounding :
    (∀ (p : Params) (b : Bool) (line : RawLine) (src : List RawLine),
      volumeOf (loadline { p with round := b } line src) =
        volumeOf (loadline p line src))
    ∧ (∀ (p : Params) (line : RawLine) (src : List RawLine) (bar : BarOut),
        loadline p line src = .bar bar →
        ∃ v : ℚ, bar.volume = pyRound p.roundvolume v)
    ∧ (∀ q : ℚ, ∃ z : ℤ, pyRound 0 q = (z : ℚ)) := by
  refine ⟨?_, ?_, ?_⟩
  · intro p b line src
    rw [loadline, loadline]
    cases hsk : skipNulls line src with
    | none => rfl
    | some ln => exact loadParsed_round_invariant p b ln
  · intro p line src bar hb
    rw [loadline] at hb
    split at hb
    · exact absurd hb (by simp)
    · rw [loadParsed] at hb
      split at hb
      · exact absurd hb (by simp)
      · split at hb
        · exact absurd hb (by simp)
        · dsimp only at hb
          cases hb
          exact ⟨_, rfl⟩
  · intro q
    exact ⟨rhe (q * 10 ^ 0), by simp [pyRound]⟩

/-- Witness for C5 (amended) at the counterexample's inputs: the same line
parsed with `round := False` and with the default carries the same volume. -/
theorem C5_witness :
    volumeOf (loadline { defaultParams with round := false }
      ⟨(2020, 1, 2),
       [.num 100, .num 105, .num 95, .num 102, .num 51, .num (5/4)]⟩ []) =
    volumeOf (loadline defaultParams
      ⟨(2020, 1, 2),
       [.num 100, .num 105, .num 95, .num 102, .num 51, .num (5/4)]⟩ []) :=
  C5_amended_unconditional_volume_rounding.1 defaultParams false
    ⟨(2020, 1, 2),
     [.num 100, .num 105, .num 95, .num 102, .num 51, .num (5/4)]⟩ []

lemma adjustStep_swap (p : Params) (o h l x y v : ℚ) :
    adjustStep { p with swapcloses := true } o h l y x v =
      adjustStep { p with swapcloses := false } o h l x y v := rfl

/-- C8: parsing a line whose close and adjusted-close tokens are exchanged,
with `swapcloses` enabled, gives exactly the outcome of parsing the original
line with `swapcloses` disabled — the swap merely undoes the exchange and
every downstream computation agrees. -/
theorem C8_swapcloses_involution :
    ∀ (p : Params) (d : ℕ × ℕ × ℕ) (o h l c adj : ℚ) (vtok : Tok)
      (src : List RawLine), vtok ≠ Tok.null →
      loadline { p with swapcloses := true }
        ⟨d, [.num o, .num h, .num l, .num adj, .num c, vtok]⟩ src =
      loadline { p with swapcloses := false }
        ⟨d, [.num o, .num h, .num l, .num c, .num adj, vtok]⟩ src := by
  intro p d o h l c adj vtok src hv
  have hnull : isNullTok vtok = false := by
    cases vtok <;> simp_all [isNullTok]
  rw [loadline, loadline,
    skipNulls_of_not_null (by simp [hasNull, isNullTok, hnull]),
    skipNulls_of_not_null (by simp [hasNull, isNullTok, hnull])]
  cases vtok with
  | null => exact absurd rfl hv
  | num q => rfl
  | other s => rfl

/-- Witness for C8 on the scenario-B line with its closes exchanged. -/
theorem C8_witness :
    loadline { defaultParams with swapcloses := true }
      ⟨(2020, 1, 2),
       [.num 100, .num 105, .num 95, .num 51, .num 102, .num 2000000]⟩ [] =
    loadline { defaultParams with swapcloses := false }
      ⟨(2020, 1, 2),
       [.num 100, .num 105, .num 95, .num 102, .num 51, .num 2000000]⟩ [] :=
  C8_swapcloses_involution defaultParams (2020, 1, 2) 100 105 95 102 51
    (.num 2000000) [] (by simp)

/-- The canonical bar value object of `base.py` (`Bar` dataclass): the
timestamp is modeled as the epoch-seconds integer the API path constructs it
from (`datetime.fromtimestamp` is a strictly monotone embedding);
`openinterest` defaults to 0.0 at every construction site in the repo. -/
structure Bar where
  timestamp : ℤ
  open' : ℚ
  high : ℚ
  low : ℚ
  close : ℚ
  volume : ℚ
  openinterest : ℚ
deriving DecidableEq

/-- The `BarSeries` dataclass of `base.py`: bars plus symbol/timeframe
metadata. -/
structure BarSeries where
  bars : List Bar
  symbol : String
  timeframe : String
deriving DecidableEq

/-- The parallel OHLCV arrays of `result["indicators"]["quote"][0]`; a `none`
entry models a JSON `null` at that position. -/
structure QuoteArrays where
  opens : List (Option ℚ)
  highs : List (Option ℚ)
  lows : List (Option ℚ)
  closes : List (Option ℚ)
  volumes : List (Option ℚ)
deriving DecidableEq

/-- The object `data["chart"]["result"][0]`: the optional `timestamp` array
and the
quote arrays. -/
structure ChartResult where
  timestamp : Option (List ℤ)
  quote : QuoteArrays
deriving DecidableEq

/-- The decoded API document: `error` is `some` exactly when
`data["chart"]["error"]` is truthy. -/
structure ChartDoc where
  error : Option String
  result : ChartResult
deriving DecidableEq

/-- The retention test `not any(ohlcv[k][i] is None for k in o/h/l/c)`:
all four price arrays hold a non-null value at position `i` (positions are
in range for the parallel arrays the claims quantify over, so an
out-of-range lookup is treated like a null). -/
def okAt (q : QuoteArrays) (i : ℕ) : Bool :=
  ((q.opens.get? i).join).isSome && ((q.highs.get? i).join).isSome &&
  ((q.lows.get? i).join).isSome && ((q.closes.get? i).join).isSome

/-- The bar-building loop of `fetch_data` (lines 237-249): enumerate the
timestamps; skip any position where a price is null; a retained position
becomes a `Bar` whose volume is `ohlcv["volume"][i] or 0.0` (null volume
defaults to 0.0) and whose `openinterest` is the dataclass default 0.0. -/
def mkBars (q : QuoteArrays) : List ℤ → ℕ → List Bar
  | [], _ => []
  | ts :: rest, i =>
    if okAt q i then
      { timestamp := ts,
        open' := ((q.opens.get? i).join).getD 0,
        high := ((q.highs.get? i).join).getD 0,
        low := ((q.lows.get? i).join).getD 0,
        close := ((q.closes.get? i).join).getD 0,
        volume := ((q.volumes.get? i).join).getD 0,
        openinterest := 0 } :: mkBars q rest (i + 1)
    else mkBars q rest (i + 1)

/-- What `fetch_data` hands back on success: a `BarSeries`, or — on the
missing-timestamp branch — an empty pandas `DataFrame` (a value of a
different type than the annotated `BarSeries` return type). -/
inductive FetchOut where
  | series (s : BarSeries) : FetchOut
  | frame : FetchOut
deriving DecidableEq

/-- The normalizer `YahooFetcher.fetch_data` on an already-decoded document:
raise on a
truthy `chart.error`; with no `timestamp` key print a warning and return an
empty `DataFrame`; otherwise build the bars and wrap them in a `BarSeries`
tagged with the caller's symbol and timeframe. -/
def fetch_data (symbol timeframe : String) (doc : ChartDoc) :
    Except String FetchOut :=
  match doc.error with
  | some e => .error ("Yahoo API Error: " ++ e)
  | none =>
    match doc.result.timestamp with
    | none => .ok .frame
    | some ts =>
        .ok (.series { bars := mkBars doc.result.quote ts 0,
                       symbol := symbol, timeframe := timeframe })

/-- The cursor step `YahooFinanceData._load`: increment the cursor index,
report `False` when
it has reached the series length, otherwise fill the lines from the bar at
the new index; paired with the `-1` initialisation of `_idx`. -/
def feedLoad (bars : List Bar) (idx : ℤ) : ℤ × Option Bar :=
  if (bars.length : ℤ) ≤ idx + 1 then (idx + 1, none)
  else (idx + 1, bars.get? (idx + 1).toNat)

/-- The cursor index after `n` calls of `_load`, starting from the `_idx = -1`
set by `YahooFinanceData.__init__` / `start`. -/
def idxAfter (bars : List Bar) : ℕ → ℤ
  | 0 => -1
  | n + 1 => (feedLoad bars (idxAfter bars n)).1

/-- The field-keyed record `Bar.to_lines` hands to the host engine. -/
structure LinesRecord where
  datetime : ℚ
  open' : ℚ
  high : ℚ
  low : ℚ
  close : ℚ
  volume : ℚ
  openinterest : ℚ
deriving DecidableEq

/-- Modelled from the spec: `bt.date2num` (defined in `backtrader.utils`,
outside `src/`) converts the timestamp into the host's numeric calendar
representation; modeled as the canonical embedding of the integer timestamp
into ℚ. -/
def date2num (t : ℤ) : ℚ := (t : ℚ)

/-- The mapping `Bar.to_lines` of `base.py`: every field is copied from the
bar (the
timestamp through `date2num`) except `openinterest`, which is the literal
constant 0.0. -/
def Bar.to_lines (b : Bar) : LinesRecord :=
  { datetime := date2num b.timestamp, open' := b.open', high := b.high,
    low := b.low, close := b.close, volume := b.volume, openinterest := 0 }

/-- C6 (code divergence): with no `chart.error` and no `timestamp` key in the
result, `fetch_data` raises nothing (the outcome is a normal `.ok`, after the
warning print) — but the value it returns is the empty pandas `DataFrame`,
not an (empty) `BarSeries` as its own return annotation and the spec say. -/
theorem C6_missing_timestamp_yields_dataframe :
    (∀ (symbol timeframe : String) (q : QuoteArrays),
      fetch_data symbol timeframe
        { error := none, result := { timestamp := none, quote := q } } =
        .ok .frame)
    ∧ (∀ s : BarSeries, FetchOut.frame ≠ FetchOut.series s)
    ∧ (∀ e : String,
        (Except.ok FetchOut.frame : Except String FetchOut) ≠ .error e) :=
  ⟨fun _ _ _ => rfl, fun s => by simp, fun e => by simp⟩

lemma mkBars_timestamps_sublist (q : QuoteArrays) :
    ∀ (ts : List ℤ) (i : ℕ), ((mkBars q ts i).map Bar.timestamp).Sublist ts := by
  intro ts
  induction ts with
  | nil => intro i; simp [mkBars]
  | cons t rest ih =>
    intro i
    cases hok : okAt q i with
    | false =>
      simp only [mkBars, hok, Bool.false_eq_true, if_false]
      exact (ih (i + 1)).cons t
    | true =>
      simp only [mkBars, hok, if_true, List.map_cons]
      exact (ih (i + 1)).cons₂ t

/-- C7: the API normalizer keeps a position exactly when none of the four
price arrays is null there (the retained timestamps are the null-free
positions, in input order), so strictly increasing input timestamps stay
strictly increasing; on `timestamp=[1,2,3]` with a null close at position 1
and a null volume at position 0 it yields two bars (volume defaulted to 0 at
the first), tagged with the caller's symbol and timeframe. -/
theorem C7_api_null_filtering :
    (∀ (q : QuoteArrays) (ts : List ℤ) (i : ℕ),
      (mkBars q ts i).map Bar.timestamp =
        (ts.zip (List.range' i ts.length)).filterMap
          (fun pr => if okAt q pr.2 then some pr.1 else none))
    ∧ (∀ (q : QuoteArrays) (ts : List ℤ) (i : ℕ),
        ts.Pairwise (· < ·) →
        ((mkBars q ts i).map Bar.timestamp).Pairwise (· < ·))
    ∧ fetch_data "SYM" "1d"
        { error := none,
          result :=
          { timestamp := some [1, 2, 3],
            quote :=
            { opens := [some 1, some 2, some 3],
              highs := [some 11, some 12, some 13],
              lows := [some (1/2), some 1, some (3/2)],
              closes := [some 10, none, some 12],
              volumes := [none, some 5, some 7] } } } =
      .ok (.series
        { bars :=
          [{ timestamp := 1, open' := 1, high := 11, low := 1/2, close := 10,
             volume := 0, openinterest := 0 },
           { timestamp := 3, open' := 3, high := 13, low := 3/2, close := 12,
             volume := 7, openinterest := 0 }],
          symbol := "SYM", timeframe := "1d" }) := by
  refine ⟨?_, ?_, rfl⟩
  · intro q ts
    induction ts with
    | nil => intro i; simp [mkBars]
    | cons t rest ih =>
      intro i
      rw [List.length_cons, List.range'_succ, List.zip_cons_cons,
        List.filterMap_cons]
      cases hok : okAt q i with
      | false => simp [mkBars, hok, ih (i + 1)]
      | true => simp [mkBars, hok, ih (i + 1)]
  · intro q ts i hts
    exact hts.sublist (mkBars_timestamps_sublist q ts i)

/-- Witness for C7's ordering clause at a concrete strictly increasing
timestamp array. -/
theorem C7_witness :
    ((mkBars { opens := [some 1, some 1], highs := [some 1, some 1],
               lows := [some 1, some 1], closes := [some 1, some 1],
               volumes := [some 1, some 1] } [5, 9] 0).map
        Bar.timestamp).Pairwise (· < ·) :=
  C7_api_null_filtering.2.1 _ [5, 9] 0 (by decide)

lemma feedLoad_fst (bars : List Bar) (idx : ℤ) :
    (feedLoad bars idx).1 = idx + 1 := by
  unfold feedLoad
  split <;> rfl

lemma idxAfter_eq (bars : List Bar) : ∀ n : ℕ, idxAfter bars n = (n : ℤ) - 1
  | 0 => rfl
  | n + 1 => by
    show (feedLoad bars (idxAfter bars n)).1 = ((n : ℕ) + 1 : ℕ) - 1
    rw [feedLoad_fst, idxAfter_eq bars n]
    push_cast
    ring

/-- C9: the feed cursor starts at index −1, so after `n` calls the index is
`n − 1`: the `n`-th call (for `n < length`) yields exactly the `n`-th bar;
every call past the length yields "no more data" (the index keeps growing,
it never wraps or resets); over an empty series the very first call already
reports no more data. -/
theorem C9_sequential_cursor :
    (∀ bars : List Bar, idxAfter bars 0 = -1)
    ∧ (∀ (bars : List Bar) (n : ℕ) (hn : n < bars.length),
        (feedLoad bars (idxAfter bars n)).2 = some (bars.get ⟨n, hn⟩))
    ∧ (∀ (bars : List Bar) (n : ℕ), bars.length ≤ n →
        (feedLoad bars (idxAfter bars n)).2 = none)
    ∧ (feedLoad ([] : List Bar) (idxAfter ([] : List Bar) 0)).2 = none := by
  refine ⟨fun _ => rfl, ?_, ?_, rfl⟩
  · intro bars n hn
    rw [idxAfter_eq]
    unfold feedLoad
    rw [if_neg (by omega)]
    have h1 : (n : ℤ) - 1 + 1 = (n : ℤ) := by ring
    rw [h1, Int.toNat_natCast, List.get?_eq_get hn]
  · intro bars n hlen
    rw [idxAfter_eq]
    unfold feedLoad
    rw [if_pos (by omega)]

/-- Witness for C9 over a one-bar series: the first advance yields the bar. -/
theorem C9_witness :
    (feedLoad [{ timestamp := 0, open' := 1, high := 2, low := 3, close := 4,
                 volume := 5, openinterest := 0 }]
      (idxAfter [{ timestamp := 0, open' := 1, high := 2, low := 3, close := 4,
                   volume := 5, openinterest := 0 }] 0)).2 =
      some ([{ timestamp := 0, open' := 1, high := 2, low := 3, close := 4,
               volume := 5, openinterest := 0 }].get ⟨0, by decide⟩) :=
  C9_sequential_cursor.2.1 _ 0 (by decide)

/-- C10: `to_lines` copies datetime (through `date2num`), open, high, low,
close and volume from the bar's fields, but maps the `openinterest` key to
the constant 0.0 — whatever the bar's own `openinterest` value is. -/
theorem C10_to_lines_zero_openinterest :
    (∀ b : Bar, Bar.to_lines b =
      { datetime := date2num b.timestamp, open' := b.open', high := b.high,
        low := b.low, close := b.close, volume := b.volume,
        openinterest := 0 })
    ∧ (∀ (b : Bar) (q : ℚ),
        (Bar.to_lines { b with openinterest := q }).openinterest = 0 ∧
        Bar.to_lines { b with openinterest := q } =
          Bar.to_lines { b with openinterest := 0 }) :=
  ⟨fun b => rfl, fun b q => ⟨rfl, rfl⟩⟩
